import Mathlib

set_option maxRecDepth 100000

/-!
Shallow embedding of the Behance Archive Downloader (src/index.js): the
resumable-ledger pipeline (initCSV, addVideoDataToCSV, isVideoDataInCSV), the
date-normalization step of the metadata extractor, the scrapeVideo
download-correlation flow and the loadAllVideos scroll loop, together with
theorems settling the specification claims about them.
-/

/-! ## Definitions: the embedding of src/index.js -/

/-- One extracted video record, as extractVideoDataFromElementHandle builds it
before a filename is known. -/
structure VideoData where
  url : String
  uuid : String
  title : String
  date : String
  duration : String
  isPrivate : Bool
deriving DecidableEq

/-- JavaScript String.prototype.includes: substring containment over the
underlying character lists. -/
def stringIncludes (s sub : String) : Bool := decide (sub.data <:+: s.data)

/-- The header row initCSV writes. -/
def csvHeaders : String := "URL,UUID,Title,Date,Duration,Filename\n"

/-- initCSV: fs.access probes for the ledger file (none models a file that
does not exist); only when the probe fails is the header row written, so an
existing file is left untouched. -/
def initCSV : Option String → Option String
  | some contents => some contents
  | none => some csvHeaders

/-- The line addVideoDataToCSV builds for one record: the six fields joined
with commas, ending in a newline. -/
def csvLine (vd : VideoData) (filename : String) : String :=
  vd.url ++ "," ++ vd.uuid ++ "," ++ vd.title ++ "," ++ vd.date ++ "," ++
    vd.duration ++ "," ++ filename ++ "\n"

/-- addVideoDataToCSV: builds the CSV line and appends it with fs.appendFile.
The function has no try/catch, so when the underlying write fails (writeOk is
the environment flag for fs.appendFile succeeding) the error propagates to the
caller; on success the appended line is returned. -/
def addVideoDataToCSV (writeOk : Bool) (vd : VideoData) (filename : String) :
    Except Unit String :=
  if writeOk then Except.ok (csvLine vd filename) else Except.error ()

/-- isVideoDataInCSV: reads the whole ledger file (none models a failing read)
and evaluates the JavaScript expression csvData.includes(uuid); a read failure
is caught and yields false. -/
def isVideoDataInCSV (file : Option String) (uuid : String) : Bool :=
  match file with
  | some csvData => stringIncludes csvData uuid
  | none => false

/-- Split a character list at every occurrence of a separator character, the
way JavaScript String.prototype.split does: the parts between separators, in
order, with empty parts kept. -/
def splitOnChar (sep : Char) : List Char → List (List Char)
  | [] => [[]]
  | c :: cs =>
    if c = sep then [] :: splitOnChar sep cs
    else
      match splitOnChar sep cs with
      | [] => [[c]]
      | p :: ps => (c :: p) :: ps

/-- The rows of the ledger: its contents split at newline characters. -/
def csvRows (contents : String) : List (List Char) :=
  splitOnChar (Char.ofNat 10) contents.data

/-- The identifier field of one ledger row: its second comma-separated field
(the UUID column of the header). -/
def rowUUID (row : List Char) : Option (List Char) :=
  (splitOnChar ',' row).get? 1

/-- A concrete ledger whose second row has identifier aaa and a title that
mentions bbb. -/
def ledgerWithTitleHit : String :=
  "URL,UUID,Title,Date,Duration,Filename\nhttps://www.behance.net/videos/aaa/x,aaa,watch bbb live,2023-01-05,1:00,f.mp4\n"

/-- Month numbers for the English month-name abbreviations that the V8
fallback date parser accepts in a "Mon D, YYYY" string. -/
def monthFromName (s : List Char) : Option Nat :=
  if s = "Jan".data then some 1
  else if s = "Feb".data then some 2
  else if s = "Mar".data then some 3
  else if s = "Apr".data then some 4
  else if s = "May".data then some 5
  else if s = "Jun".data then some 6
  else if s = "Jul".data then some 7
  else if s = "Aug".data then some 8
  else if s = "Sep".data then some 9
  else if s = "Oct".data then some 10
  else if s = "Nov".data then some 11
  else if s = "Dec".data then some 12
  else none

/-- Value of a token of decimal digits, accumulator form. -/
def parseDigitsAux : List Char → Nat → Option Nat
  | [], acc => some acc
  | c :: cs, acc =>
    if c.isDigit then parseDigitsAux cs (acc * 10 + (c.toNat - 48)) else none

/-- Value of a nonempty token of decimal digits. -/
def parseDigits (cs : List Char) : Option Nat :=
  match cs with
  | [] => none
  | _ => parseDigitsAux cs 0

/-- Drop one trailing comma from a token, as in the day token of
"Jan 5, 2023". -/
def dropTrailingComma (cs : List Char) : List Char :=
  match cs.reverse with
  | ',' :: rest => rest.reverse
  | _ => cs

/-- Model of new Date(raw) tokenization for "Mon D, YYYY" strings: the three
space-separated tokens give month, day and year. none models an invalid
date. -/
def parseUSDate (raw : String) : Option (Int × Nat × Nat) :=
  match splitOnChar (Char.ofNat 32) raw.data with
  | [monTok, dayTok, yearTok] =>
    match monthFromName monTok, parseDigits (dropTrailingComma dayTok),
        parseDigits yearTok with
    | some m, some d, some y => some ((y : Int), m, d)
    | _, _, _ => none
  | _ => none

/-- Days since the Unix epoch of a civil (proleptic Gregorian) date, by the
standard days-from-civil algorithm; division on Int is floor division. -/
def daysFromCivil (y : Int) (m d : Nat) : Int :=
  let yAdj : Int := if m ≤ 2 then y - 1 else y
  let era : Int := yAdj / 400
  let yoe : Int := yAdj - era * 400
  let mp : Int := if m > 2 then (m : Int) - 3 else (m : Int) + 9
  let doy : Int := (153 * mp + 2) / 5 + (d : Int) - 1
  let doe : Int := yoe * 365 + yoe / 4 - yoe / 100 + doy
  era * 146097 + doe - 719468

/-- Civil (proleptic Gregorian) date of a days-since-epoch count, by the
standard civil-from-days algorithm; division on Int is floor division. -/
def civilFromDays (z : Int) : Int × Int × Int :=
  let zAdj := z + 719468
  let era := zAdj / 146097
  let doe := zAdj - era * 146097
  let yoe := (doe - doe / 1460 + doe / 36524 - doe / 146096) / 365
  let y := yoe + era * 400
  let doy := doe - (365 * yoe + yoe / 4 - yoe / 100)
  let mp := (5 * doy + 2) / 153
  let d := doy - (153 * mp + 2) / 5 + 1
  let m := if mp < 10 then mp + 3 else mp - 9
  (if m ≤ 2 then y + 1 else y, m, d)

/-- Decimal digits of a number, with fuel for structural recursion. -/
def natDigitsAux : Nat → Nat → List Char
  | 0, _ => []
  | fuel + 1, n =>
    if n < 10 then [Char.ofNat (48 + n)]
    else natDigitsAux fuel (n / 10) ++ [Char.ofNat (48 + n % 10)]

/-- Decimal rendering of a number below ten to the eighth. -/
def natToDecimal (n : Nat) : String := String.mk (natDigitsAux 8 n)

/-- Two-digit zero padding, as toISOString renders months and days. -/
def pad2 (n : Nat) : String := if n < 10 then "0" ++ natToDecimal n else natToDecimal n

/-- Four-digit zero padding, as toISOString renders years in 0..9999. -/
def pad4 (n : Nat) : String :=
  if n < 10 then "000" ++ natToDecimal n
  else if n < 100 then "00" ++ natToDecimal n
  else if n < 1000 then "0" ++ natToDecimal n
  else natToDecimal n

/-- The date part of toISOString output for a civil date. -/
def formatISODate : Int × Int × Int → String
  | (y, m, d) => pad4 y.toNat ++ "-" ++ pad2 m.toNat ++ "-" ++ pad2 d.toNat

/-- The date-normalization step of extractVideoDataFromElementHandle. The raw
displayed text parses to a civil date taken as midnight local time, the
instant days * 1440 - tz minutes since the epoch, where tz is the UTC offset
of the running environment in minutes (east of UTC positive); the rendered
result is the UTC civil date of that instant. -/
def normalizeDate (raw : String) (tzOffsetMinutes : Int) : Option String :=
  match parseUSDate raw with
  | none => none
  | some (y, m, d) =>
    some (formatISODate (civilFromDays
      ((daysFromCivil y m d * 1440 - tzOffsetMinutes) / 1440)))

/-- A download lifecycle notification from the browser: the CDP event
Browser.downloadWillBegin carrying its guid, or Browser.downloadProgress
carrying a guid and a state string. -/
inductive DownloadEvent
  | willBegin (guid : String)
  | progress (guid : String) (state : String)
deriving DecidableEq

/-- The observable side effects scrapeVideo performs, in the order it performs
them: the two listener registrations, the interaction-driver gestures and
waits, listener removals, the rename of the finished file, the ledger append
and the resolution of the returned promise. -/
inductive ScrapeAction
  | registerStartListener
  | registerProgressListener
  | hoverItem
  | waitTooltip
  | hoverTooltip
  | waitMenu
  | clickDownload
  | removeStartListeners
  | removeProgressListeners
  | rename (src dst : String)
  | appendCSV (line : String)
  | resolve
deriving DecidableEq

/-- How the promise scrapeVideo returns ends: resolved, still pending (it
never settles), or abandoned because an error escaped one of the async
callbacks with no handler. -/
inductive ScrapeOutcome
  | pending
  | resolved
  | uncaughtError
deriving DecidableEq

/-- The mutable correlation state of one in-flight item: the captured transfer
identifier (the variable downloadFilename, initialized to the empty string),
whether each of the two listeners is still attached, and how the promise has
ended so far. -/
structure CorrState where
  downloadFilename : String
  startListenerOn : Bool
  progressListenerOn : Bool
  outcome : ScrapeOutcome
deriving DecidableEq

/-- The correlation state right after scrapeVideo registers both listeners. -/
def initialCorrState : CorrState :=
  { downloadFilename := "", startListenerOn := true, progressListenerOn := true,
    outcome := ScrapeOutcome.pending }

/-- Model of the external sanitize-filename utility (a pure utility the
specification leaves out of scope): characters illegal in filenames are
removed. -/
def sanitizeFilename (title : String) : String :=
  String.mk (title.data.filter fun c =>
    !(c == '/' || c == '?' || c == '<' || c == '>' || c == Char.ofNat 92 ||
      c == ':' || c == '*' || c == '|' || c == Char.ofNat 34 ||
      decide (c.toNat < 32)))

/-- The canonical filename a completed download is renamed to: the date, a
separating dash, the sanitized title and the mp4 suffix. -/
def canonicalFilename (vd : VideoData) : String :=
  vd.date ++ " - " ++ sanitizeFilename vd.title ++ ".mp4"

/-- The completion callback body: remove the progress listener, rename the
provisional file (named by the captured identifier) to the canonical name,
append the completed record to the ledger and resolve. renameOk and writeOk
are the environment flags for fs.rename and fs.appendFile succeeding; a
failing call stops the callback there and its error escapes unhandled. -/
def completionActions (vd : VideoData) (downloadDir : String)
    (renameOk writeOk : Bool) (s : CorrState) : CorrState × List ScrapeAction :=
  if renameOk then
    match addVideoDataToCSV writeOk vd (canonicalFilename vd) with
    | Except.ok line =>
      ({ s with progressListenerOn := false, outcome := ScrapeOutcome.resolved },
       [ScrapeAction.removeProgressListeners,
        ScrapeAction.rename (downloadDir ++ "/" ++ s.downloadFilename)
          (downloadDir ++ "/" ++ canonicalFilename vd),
        ScrapeAction.appendCSV line,
        ScrapeAction.resolve])
    | Except.error _ =>
      ({ s with progressListenerOn := false, outcome := ScrapeOutcome.uncaughtError },
       [ScrapeAction.removeProgressListeners,
        ScrapeAction.rename (downloadDir ++ "/" ++ s.downloadFilename)
          (downloadDir ++ "/" ++ canonicalFilename vd)])
  else
    ({ s with progressListenerOn := false, outcome := ScrapeOutcome.uncaughtError },
     [ScrapeAction.removeProgressListeners])

/-- Dispatch of one download notification against the listeners scrapeVideo
attached: a started notification is acted on only while the start listener is
attached, and capturing the identifier detaches that listener at once; a
progress notification is acted on only while the progress listener is
attached, and only when it carries the captured identifier with the state
completed. -/
def handleEvent (vd : VideoData) (downloadDir : String) (renameOk writeOk : Bool)
    (s : CorrState) (e : DownloadEvent) : CorrState × List ScrapeAction :=
  match e with
  | DownloadEvent.willBegin guid =>
    if s.startListenerOn then
      ({ s with startListenerOn := false, downloadFilename := guid },
       [ScrapeAction.removeStartListeners])
    else (s, [])
  | DownloadEvent.progress guid state =>
    if s.progressListenerOn && guid == s.downloadFilename && state == "completed" then
      completionActions vd downloadDir renameOk writeOk s
    else (s, [])

/-- Fold of the two listeners over the notifications delivered while one item
is in flight, accumulating the actions performed. -/
def processEvents (vd : VideoData) (downloadDir : String) (renameOk writeOk : Bool) :
    CorrState → List DownloadEvent → CorrState × List ScrapeAction
  | s, [] => (s, [])
  | s, e :: es =>
    let r := handleEvent vd downloadDir renameOk writeOk s e
    let rest := processEvents vd downloadDir renameOk writeOk r.1 es
    (rest.1, r.2 ++ rest.2)

/-- scrapeVideo for one grid item: vd is the videoData extracted from the
element handle, csvFile the current ledger contents the membership check
reads, events the download notifications the browser delivers after the
interaction. Returns the ordered observable actions and how the returned
promise ends. -/
def scrapeVideo (vd : VideoData) (csvFile : Option String) (downloadDir : String)
    (renameOk writeOk : Bool) (events : List DownloadEvent) :
    List ScrapeAction × ScrapeOutcome :=
  if isVideoDataInCSV csvFile vd.uuid then
    ([ScrapeAction.resolve], ScrapeOutcome.resolved)
  else if vd.isPrivate then
    match addVideoDataToCSV writeOk vd "PRIVATE - video not downloadable" with
    | Except.ok line =>
      ([ScrapeAction.appendCSV line, ScrapeAction.resolve], ScrapeOutcome.resolved)
    | Except.error _ => ([], ScrapeOutcome.uncaughtError)
  else
    let r := processEvents vd downloadDir renameOk writeOk initialCorrState events
    ([ScrapeAction.registerStartListener, ScrapeAction.registerProgressListener,
      ScrapeAction.hoverItem, ScrapeAction.waitTooltip, ScrapeAction.hoverTooltip, ScrapeAction.waitMenu,
      ScrapeAction.clickDownload] ++ r.2, r.1.outcome)

/-- The orchestrator loop over the grid items: each item is awaited in turn,
so an item whose promise ends any way but resolved never hands control back
and the count of items reached stops there. Each item carries its videoData,
ledger contents, filesystem flags and notifications. -/
def itemsProcessed (downloadDir : String) :
    List (VideoData × Option String × Bool × Bool × List DownloadEvent) → Nat
  | [] => 0
  | (vd, csvFile, renameOk, writeOk, events) :: rest =>
    if (scrapeVideo vd csvFile downloadDir renameOk writeOk events).2 =
        ScrapeOutcome.resolved
    then 1 + itemsProcessed downloadDir rest
    else 0

/-- Recognizer for ledger-append actions. -/
def isAppendAction : ScrapeAction → Bool
  | ScrapeAction.appendCSV _ => true
  | _ => false

/-- Recognizer for download-started notifications. -/
def isWillBeginEvent : DownloadEvent → Bool
  | DownloadEvent.willBegin _ => true
  | _ => false

/-- The transfer identifier a notification carries. -/
def eventGuid : DownloadEvent → String
  | DownloadEvent.willBegin g => g
  | DownloadEvent.progress g _ => g

/-- A concrete extracted record whose identifier aaa occurs as the identifier
field of a row of the concrete ledger. -/
def sampleLedgered : VideoData :=
  { url := "https://www.behance.net/videos/aaa/x", uuid := "aaa",
    title := "watch bbb live", date := "2023-01-05", duration := "1:00",
    isPrivate := false }

/-- A concrete extracted record flagged private, identifier ccc. -/
def samplePrivate : VideoData :=
  { url := "https://www.behance.net/videos/ccc/y", uuid := "ccc",
    title := "hidden stream", date := "2023-02-01", duration := "2:00",
    isPrivate := true }

/-- A concrete extracted record that is neither ledgered nor private,
identifier ddd. -/
def sampleDownload : VideoData :=
  { url := "https://www.behance.net/videos/ddd/z", uuid := "ddd",
    title := "open stream", date := "2023-03-01", duration := "3:00",
    isPrivate := false }

/-- One run of the scroll loop of loadAllVideos. observedTop k is the value of
scroller.scrollTop read after the one-second settle wait of iteration k (the
browser clamps the scroll assignment, so the observed value is determined by
the environment). The loop itself carries no iteration bound; fuel only makes
the recursion structural, and a run that exhausts any amount of fuel has not
terminated. Returns the index of the iteration that set window.atBottom. -/
def loadAllVideosLoop (observedTop : Nat → Int) : Nat → Nat → Int → Option Nat
  | 0, _, _ => none
  | fuel + 1, k, lastPosition =>
    if observedTop k = lastPosition then some k
    else loadAllVideosLoop observedTop fuel (k + 1) (observedTop k)

/-- The loop as loadAllVideos starts it: iteration zero against the initial
lastPosition of -1. -/
def loadAllVideosRun (observedTop : Nat → Int) (fuel : Nat) : Option Nat :=
  loadAllVideosLoop observedTop fuel 0 (-1)

/-- The position iteration k is compared against: -1 before the first
iteration, afterwards the previous observation. -/
def prevPosition (observedTop : Nat → Int) : Nat → Int
  | 0 => -1
  | k + 1 => observedTop k

/-! ## Theorems -/

/-- Every part splitOnChar produces sits inside the input: the head part is a
leading segment and the remaining parts are contiguous segments. -/
theorem splitOnChar_parts (sep : Char) (l : List Char) :
    ∃ h t, splitOnChar sep l = h :: t ∧ h <+: l ∧ ∀ p ∈ t, p <:+: l := by
  induction l with
  | nil => exact ⟨[], [], rfl, List.nil_prefix, by simp⟩
  | cons c cs ih =>
    obtain ⟨h, t, hsplit, hpre, htail⟩ := ih
    by_cases hc : c = sep
    · refine ⟨[], h :: t, ?_, List.nil_prefix, ?_⟩
      · simp [splitOnChar, hc, hsplit]
      · intro p hp
        rcases List.mem_cons.mp hp with rfl | hp
        · exact List.infix_cons hpre.isInfix
        · exact List.infix_cons (htail p hp)
    · refine ⟨c :: h, t, ?_, ?_, ?_⟩
      · simp [splitOnChar, hc, hsplit]
      · obtain ⟨r, hr⟩ := hpre
        exact ⟨r, by simp [hr]⟩
      · intro p hp
        exact List.infix_cons (htail p hp)

/-- Every part splitOnChar produces is a contiguous segment of the input. -/
theorem splitOnChar_mem_isSegment (sep : Char) (l p : List Char)
    (hp : p ∈ splitOnChar sep l) : p <:+: l := by
  obtain ⟨h, t, hsplit, hpre, htail⟩ := splitOnChar_parts sep l
  rw [hsplit] at hp
  rcases List.mem_cons.mp hp with rfl | hp
  · exact hpre.isInfix
  · exact htail p hp

/-- C1 as stated is false on the code: isVideoDataInCSV is a raw substring
scan of the whole file, so the uuid bbb, which is no row identifier and only
occurs inside the title field of a row whose identifier is aaa, is still
reported as present. -/
theorem isVideoDataInCSV_title_hit_counterexample :
    isVideoDataInCSV (some ledgerWithTitleHit) "bbb" = true ∧
    ∀ row ∈ csvRows ledgerWithTitleHit, ¬ rowUUID row = some ("bbb".data) := by
  decide

/-- C1 amended: the membership check is substring containment over the full
current contents, so it returns true whenever some existing row has identifier
uuid (that direction of the claim holds), but in general it returns true
exactly when uuid occurs anywhere in the contents, including inside other
fields. -/
theorem isVideoDataInCSV_substring_semantics (contents uuid : String) :
    (isVideoDataInCSV (some contents) uuid = true ↔ uuid.data <:+: contents.data)
    ∧ (∀ row ∈ csvRows contents, rowUUID row = some uuid.data →
        isVideoDataInCSV (some contents) uuid = true) := by
  constructor
  · simp [isVideoDataInCSV, stringIncludes]
  · intro row hrow hid
    have hrowseg : row <:+: contents.data :=
      splitOnChar_mem_isSegment (Char.ofNat 10) contents.data row hrow
    have hfield : uuid.data ∈ splitOnChar ',' row := by
      have := List.get?_mem hid
      exact this
    have hinrow : uuid.data <:+: row :=
      splitOnChar_mem_isSegment ',' row uuid.data hfield
    have : uuid.data <:+: contents.data := hinrow.trans hrowseg
    simp [isVideoDataInCSV, stringIncludes, this]

/-- Applying the amended C1 theorem at the concrete ledger: the identifier aaa
of the second row is found. -/
theorem isVideoDataInCSV_substring_semantics_witness :
    isVideoDataInCSV (some ledgerWithTitleHit) "aaa" = true :=
  (isVideoDataInCSV_substring_semantics ledgerWithTitleHit "aaa").1.mpr (by decide)

/-- C8: initCSV is idempotent and never truncates: a missing ledger becomes
exactly the header row, an existing ledger keeps its contents, and running it
twice equals running it once. -/
theorem initCSV_idempotent_never_truncates :
    (∀ f, initCSV (initCSV f) = initCSV f)
    ∧ (∀ contents, initCSV (some contents) = some contents)
    ∧ initCSV none = some csvHeaders := by
  refine ⟨?_, ?_, rfl⟩
  · intro f
    cases f <;> rfl
  · intro contents
    rfl

/-- C4 fails as stated: normalizing "Jan 5, 2023" is not independent of the
environment. At UTC offset zero it yields 2023-01-05, but one hour east of
UTC (offset 60 minutes, for example central Europe) it yields 2023-01-04. -/
theorem normalizeDate_timezone_counterexample :
    normalizeDate "Jan 5, 2023" 0 = some "2023-01-05" ∧
    normalizeDate "Jan 5, 2023" 60 = some "2023-01-04" ∧
    ¬ normalizeDate "Jan 5, 2023" 60 = some "2023-01-05" := by
  decide

/-- C4 amended: for the raw text "Jan 5, 2023" the date-normalization step
yields 2023-01-05 exactly in environments at or west of UTC (offset not above
zero); in any environment east of UTC it yields the previous day,
2023-01-04, so the result depends on the running timezone. -/
theorem normalizeDate_depends_on_timezone (off : Int) :
    (-1440 < off → off ≤ 0 → normalizeDate "Jan 5, 2023" off = some "2023-01-05")
    ∧ (0 < off → off < 1440 → normalizeDate "Jan 5, 2023" off = some "2023-01-04") := by
  have hp : parseUSDate "Jan 5, 2023" = some (2023, 1, 5) := by decide
  have hd : daysFromCivil 2023 1 5 = 19362 := by decide
  constructor
  · intro h1 h2
    have he : (daysFromCivil 2023 1 5 * 1440 - off) / 1440 = 19362 := by
      rw [hd]; omega
    simp only [normalizeDate, hp, he]
    decide
  · intro h1 h2
    have he : (daysFromCivil 2023 1 5 * 1440 - off) / 1440 = 19361 := by
      rw [hd]; omega
    simp only [normalizeDate, hp, he]
    decide

/-- Applying the amended C4 theorem five hours west of UTC and nine hours east
of UTC. -/
theorem normalizeDate_depends_on_timezone_witness :
    normalizeDate "Jan 5, 2023" (-300) = some "2023-01-05" ∧
    normalizeDate "Jan 5, 2023" 540 = some "2023-01-04" :=
  ⟨(normalizeDate_depends_on_timezone (-300)).1 (by norm_num) (by norm_num),
   (normalizeDate_depends_on_timezone 540).2 (by norm_num) (by norm_num)⟩

/-- With the progress listener removed, the remaining notifications can only
touch the start listener: no append is performed, the promise is not resolved,
and the recorded outcome stays what it was. -/
theorem processEvents_progressOff (vd : VideoData) (dir : String)
    (renameOk writeOk : Bool) :
    ∀ (es : List DownloadEvent) (s : CorrState), s.progressListenerOn = false →
      (processEvents vd dir renameOk writeOk s es).2.countP isAppendAction = 0
      ∧ (processEvents vd dir renameOk writeOk s es).1.outcome = s.outcome
      ∧ ScrapeAction.resolve ∉ (processEvents vd dir renameOk writeOk s es).2 := by
  intro es
  induction es with
  | nil =>
    intro s h
    simp [processEvents]
  | cons e es ih =>
    intro s h
    rcases e with g | ⟨g, st⟩
    · by_cases hs : s.startListenerOn
      · have hrec := ih { s with startListenerOn := false, downloadFilename := g }
          (by simpa using h)
        simp only [processEvents, handleEvent, hs, if_true]
        simp [isAppendAction, hrec.1, hrec.2.1, hrec.2.2]
      · have hrec := ih s h
        simp only [processEvents, handleEvent, hs, if_false]
        simpa using hrec
    · have hcond :
        (s.progressListenerOn && g == s.downloadFilename && st == "completed") = false := by
        simp [h]
      have hrec := ih s h
      simp only [processEvents, handleEvent, hcond]
      simpa using hrec

/-- The completion callback takes one of three shapes, fixed by the two
filesystem flags: full success resolving the promise, a failing append after
the rename, or a failing rename; in every shape the progress listener is
removed and the captured identifier and start listener are untouched. -/
theorem completionActions_cases (vd : VideoData) (dir : String)
    (renameOk writeOk : Bool) (s : CorrState) :
    (completionActions vd dir renameOk writeOk s =
      ({ s with progressListenerOn := false, outcome := ScrapeOutcome.resolved },
       [ScrapeAction.removeProgressListeners,
        ScrapeAction.rename (dir ++ "/" ++ s.downloadFilename)
          (dir ++ "/" ++ canonicalFilename vd),
        ScrapeAction.appendCSV (csvLine vd (canonicalFilename vd)),
        ScrapeAction.resolve]) ∧ writeOk = true)
    ∨ completionActions vd dir renameOk writeOk s =
      ({ s with progressListenerOn := false, outcome := ScrapeOutcome.uncaughtError },
       [ScrapeAction.removeProgressListeners,
        ScrapeAction.rename (dir ++ "/" ++ s.downloadFilename)
          (dir ++ "/" ++ canonicalFilename vd)])
    ∨ completionActions vd dir renameOk writeOk s =
      ({ s with progressListenerOn := false, outcome := ScrapeOutcome.uncaughtError },
       [ScrapeAction.removeProgressListeners]) := by
  unfold completionActions addVideoDataToCSV
  by_cases hr : renameOk <;> by_cases hw : writeOk <;> simp [hr, hw]

/-- With the start listener removed, no later notification changes the
captured identifier, and the start listener never comes back. -/
theorem processEvents_startOff (vd : VideoData) (dir : String)
    (renameOk writeOk : Bool) :
    ∀ (es : List DownloadEvent) (s : CorrState), s.startListenerOn = false →
      (processEvents vd dir renameOk writeOk s es).1.downloadFilename =
        s.downloadFilename
      ∧ (processEvents vd dir renameOk writeOk s es).1.startListenerOn = false := by
  intro es
  induction es with
  | nil =>
    intro s h
    simp [processEvents, h]
  | cons e es ih =>
    intro s h
    rcases e with g | ⟨g, st⟩
    · simp only [processEvents, handleEvent, h, if_false]
      simpa using ih s h
    · by_cases hcond :
        (s.progressListenerOn && g == s.downloadFilename && st == "completed") = true
      · simp only [processEvents, handleEvent, hcond, if_true]
        rcases completionActions_cases vd dir renameOk writeOk s with ⟨hca, -⟩ | hca | hca <;>
          rw [hca] <;>
            simpa using ih _ (by simpa using h)
      · rw [Bool.not_eq_true] at hcond
        simp only [processEvents, handleEvent, hcond]
        simpa using ih s h

/-- Notifications that contain no download-started event leave the captured
identifier and the start listener untouched. -/
theorem processEvents_noStart (vd : VideoData) (dir : String)
    (renameOk writeOk : Bool) :
    ∀ (es : List DownloadEvent) (s : CorrState),
      (∀ e ∈ es, isWillBeginEvent e = false) →
      (processEvents vd dir renameOk writeOk s es).1.downloadFilename =
        s.downloadFilename
      ∧ (processEvents vd dir renameOk writeOk s es).1.startListenerOn =
        s.startListenerOn := by
  intro es
  induction es with
  | nil =>
    intro s _
    simp [processEvents]
  | cons e es ih =>
    intro s h
    rcases e with g | ⟨g, st⟩
    · exact absurd (h (DownloadEvent.willBegin g) (by simp)) (by simp [isWillBeginEvent])
    · have hrest : ∀ e ∈ es, isWillBeginEvent e = false := fun e he => h e (by simp [he])
      by_cases hcond :
        (s.progressListenerOn && g == s.downloadFilename && st == "completed") = true
      · simp only [processEvents, handleEvent, hcond, if_true]
        rcases completionActions_cases vd dir renameOk writeOk s with ⟨hca, -⟩ | hca | hca <;>
          rw [hca] <;>
            simpa using ih _ hrest
      · rw [Bool.not_eq_true] at hcond
        simp only [processEvents, handleEvent, hcond]
        simpa using ih s hrest

/-- Splitting a run of notifications: the states chain and the action lists
concatenate. -/
theorem processEvents_append (vd : VideoData) (dir : String)
    (renameOk writeOk : Bool) :
    ∀ (es₁ es₂ : List DownloadEvent) (s : CorrState),
      processEvents vd dir renameOk writeOk s (es₁ ++ es₂) =
        ((processEvents vd dir renameOk writeOk
            (processEvents vd dir renameOk writeOk s es₁).1 es₂).1,
         (processEvents vd dir renameOk writeOk s es₁).2 ++
           (processEvents vd dir renameOk writeOk
             (processEvents vd dir renameOk writeOk s es₁).1 es₂).2) := by
  intro es₁
  induction es₁ with
  | nil =>
    intro es₂ s
    simp [processEvents]
  | cons e es ih =>
    intro es₂ s
    simp only [List.cons_append, processEvents, List.append_eq]
    rw [ih]
    simp [List.append_assoc]

/-- The action list of one dispatched notification takes one of five shapes:
nothing, the start-listener removal, or one of the three completion-callback
shapes; an append occurs only in the full-success shape, right after the
rename and right before the resolution. -/
theorem handleEvent_actions_cases (vd : VideoData) (dir : String)
    (renameOk writeOk : Bool) (s : CorrState) (e : DownloadEvent) :
    (handleEvent vd dir renameOk writeOk s e).2 = []
    ∨ (handleEvent vd dir renameOk writeOk s e).2 = [ScrapeAction.removeStartListeners]
    ∨ (handleEvent vd dir renameOk writeOk s e).2 = [ScrapeAction.removeProgressListeners]
    ∨ (∃ src dst, (handleEvent vd dir renameOk writeOk s e).2 =
        [ScrapeAction.removeProgressListeners, ScrapeAction.rename src dst])
    ∨ (∃ src dst line, (handleEvent vd dir renameOk writeOk s e).2 =
        [ScrapeAction.removeProgressListeners, ScrapeAction.rename src dst,
         ScrapeAction.appendCSV line, ScrapeAction.resolve]) := by
  rcases e with g | ⟨g, st⟩
  · by_cases hs : s.startListenerOn = true
    · right; left
      simp [handleEvent, hs]
    · left
      simp [handleEvent, hs]
  · by_cases hcond :
      (s.progressListenerOn && g == s.downloadFilename && st == "completed") = true
    · simp only [handleEvent, hcond, if_true]
      rcases completionActions_cases vd dir renameOk writeOk s with ⟨hca, -⟩ | hca | hca
      · right; right; right; right
        exact ⟨_, _, _, by rw [hca]⟩
      · right; right; right; left
        exact ⟨_, _, by rw [hca]⟩
      · right; right; left
        rw [hca]
    · rw [Bool.not_eq_true] at hcond
      left
      simp [handleEvent, hcond]

/-- Every append performed while an item is in flight comes right after a
successful rename: the two actions are adjacent in the accumulated list. -/
theorem processEvents_append_after_rename (vd : VideoData) (dir : String)
    (renameOk writeOk : Bool) :
    ∀ (es : List DownloadEvent) (s : CorrState) (line : String),
      ScrapeAction.appendCSV line ∈ (processEvents vd dir renameOk writeOk s es).2 →
      ∃ src dst, [ScrapeAction.rename src dst, ScrapeAction.appendCSV line] <:+:
        (processEvents vd dir renameOk writeOk s es).2 := by
  intro es
  induction es with
  | nil =>
    intro s line h
    simp [processEvents] at h
  | cons e es ih =>
    intro s line h
    simp only [processEvents] at h ⊢
    rcases List.mem_append.mp h with h1 | h2
    · rcases handleEvent_actions_cases vd dir renameOk writeOk s e with
        hc | hc | hc | ⟨src, dst, hc⟩ | ⟨src, dst, l, hc⟩ <;> rw [hc] at h1 <;>
          simp at h1
      subst h1
      exact ⟨src, dst, [ScrapeAction.removeProgressListeners],
        ScrapeAction.resolve :: (processEvents vd dir renameOk writeOk
          (handleEvent vd dir renameOk writeOk s e).1 es).2, by rw [hc]; simp⟩
    · obtain ⟨src, dst, u, v, huv⟩ :=
        ih (handleEvent vd dir renameOk writeOk s e).1 line h2
      exact ⟨src, dst, (handleEvent vd dir renameOk writeOk s e).2 ++ u, v,
        by rw [← huv]; simp [List.append_assoc]⟩

/-- While an item is in flight, at most one append is performed; the promise
resolves exactly when the full completion shape ran, which appends exactly
once and requires the ledger write to succeed; and a resolution can only be
reached with a succeeding ledger write. -/
theorem processEvents_appends_bound (vd : VideoData) (dir : String)
    (renameOk writeOk : Bool) :
    ∀ (es : List DownloadEvent) (s : CorrState), s.progressListenerOn = true →
      s.outcome = ScrapeOutcome.pending →
      (processEvents vd dir renameOk writeOk s es).2.countP isAppendAction ≤ 1
      ∧ ((processEvents vd dir renameOk writeOk s es).1.outcome = ScrapeOutcome.resolved →
          (processEvents vd dir renameOk writeOk s es).2.countP isAppendAction = 1
          ∧ writeOk = true)
      ∧ (ScrapeAction.resolve ∈ (processEvents vd dir renameOk writeOk s es).2 →
          writeOk = true) := by
  intro es
  induction es with
  | nil =>
    intro s hp ho
    simp [processEvents, ho]
  | cons e es ih =>
    intro s hp ho
    rcases e with g | ⟨g, st⟩
    · by_cases hs : s.startListenerOn = true
      · simp only [processEvents, handleEvent, hs, if_true]
        have hrec := ih { s with startListenerOn := false, downloadFilename := g }
          (by simpa using hp) (by simpa using ho)
        simpa [List.countP_cons, isAppendAction] using hrec
      · rw [Bool.not_eq_true] at hs
        simp only [processEvents, handleEvent, hs, if_false]
        simpa using ih s hp ho
    · by_cases hcond :
        (s.progressListenerOn && g == s.downloadFilename && st == "completed") = true
      · simp only [processEvents, handleEvent, hcond, if_true]
        rcases completionActions_cases vd dir renameOk writeOk s with ⟨hca, hw⟩ | hca | hca <;>
          rw [hca]
        · obtain ⟨hc0, hout, hres⟩ := processEvents_progressOff vd dir renameOk writeOk es
            { s with progressListenerOn := false, outcome := ScrapeOutcome.resolved }
            (by simp)
          refine ⟨?_, fun _ => ⟨?_, hw⟩, fun _ => hw⟩
          · simp [List.countP_append, List.countP_cons, isAppendAction, hc0]
          · simp [List.countP_append, List.countP_cons, isAppendAction, hc0]
        · obtain ⟨hc0, hout, hres⟩ := processEvents_progressOff vd dir renameOk writeOk es
            { s with progressListenerOn := false, outcome := ScrapeOutcome.uncaughtError }
            (by simp)
          refine ⟨?_, ?_, ?_⟩
          · simp [List.countP_append, List.countP_cons, isAppendAction, hc0]
          · intro hcontra
            rw [show ((({ s with progressListenerOn := false, outcome := ScrapeOutcome.uncaughtError } : CorrState), [ScrapeAction.removeProgressListeners, ScrapeAction.rename (dir ++ "/" ++ s.downloadFilename) (dir ++ "/" ++ canonicalFilename vd)]) : CorrState × List ScrapeAction).1 = ({ s with progressListenerOn := false, outcome := ScrapeOutcome.uncaughtError } : CorrState) from rfl] at hcontra
            rw [hout] at hcontra
            simp at hcontra
          · intro hmem
            rcases List.mem_append.mp hmem with h1 | h2
            · simp at h1
            · exact absurd h2 hres
        · obtain ⟨hc0, hout, hres⟩ := processEvents_progressOff vd dir renameOk writeOk es
            { s with progressListenerOn := false, outcome := ScrapeOutcome.uncaughtError }
            (by simp)
          refine ⟨?_, ?_, ?_⟩
          · simp [List.countP_append, List.countP_cons, isAppendAction, hc0]
          · intro hcontra
            rw [show ((({ s with progressListenerOn := false, outcome := ScrapeOutcome.uncaughtError } : CorrState), [ScrapeAction.removeProgressListeners]) : CorrState × List ScrapeAction).1 = ({ s with progressListenerOn := false, outcome := ScrapeOutcome.uncaughtError } : CorrState) from rfl] at hcontra
            rw [hout] at hcontra
            simp at hcontra
          · intro hmem
            rcases List.mem_append.mp hmem with h1 | h2
            · simp at h1
            · exact absurd h2 hres
      · rw [Bool.not_eq_true] at hcond
        simp only [processEvents, handleEvent, hcond]
        simpa using ih s hp ho

/-- As long as no download-started notification has been received, progress
notifications with nonempty identifiers cannot match the captured identifier,
which still holds its initial empty-string value: nothing happens at all. -/
theorem processEvents_noCompletion (vd : VideoData) (dir : String)
    (renameOk writeOk : Bool) :
    ∀ (es : List DownloadEvent) (s : CorrState), s.downloadFilename = "" →
      (∀ e ∈ es, isWillBeginEvent e = false) →
      (∀ e ∈ es, ¬ eventGuid e = "") →
      processEvents vd dir renameOk writeOk s es = (s, []) := by
  intro es
  induction es with
  | nil =>
    intro s _ _ _
    rfl
  | cons e es ih =>
    intro s hdf hstart hguid
    rcases e with g | ⟨g, st⟩
    · exact absurd (hstart (DownloadEvent.willBegin g) (by simp))
        (by simp [isWillBeginEvent])
    · have hg : ¬ g = "" := by
        simpa [eventGuid] using hguid (DownloadEvent.progress g st) (by simp)
      have hcond :
          (s.progressListenerOn && g == s.downloadFilename && st == "completed")
            = false := by
        simp [hdf, hg]
      simp only [processEvents, handleEvent, hcond]
      have hrec := ih s hdf (fun x hx => hstart x (by simp [hx]))
        (fun x hx => hguid x (by simp [hx]))
      simp [hrec]

/-- C3: an item whose extracted identifier already passes the ledger
membership check is skipped: scrapeVideo resolves at once and its only
observable action is the resolution, so no hover, no menu wait, no click, no
download-started or download-progress listener registration and no ledger
append occur. -/
theorem scrapeVideo_skips_ledgered (vd : VideoData) (csvFile : Option String)
    (downloadDir : String) (renameOk writeOk : Bool) (events : List DownloadEvent)
    (h : isVideoDataInCSV csvFile vd.uuid = true) :
    scrapeVideo vd csvFile downloadDir renameOk writeOk events =
      ([ScrapeAction.resolve], ScrapeOutcome.resolved) := by
  simp [scrapeVideo, h]

/-- Applying C3 at a concrete ledgered item, with a completed-progress
notification on offer that is ignored. -/
theorem scrapeVideo_skips_ledgered_witness :
    scrapeVideo sampleLedgered (some ledgerWithTitleHit) "dl" true true
      [DownloadEvent.progress "g" "completed"] =
      ([ScrapeAction.resolve], ScrapeOutcome.resolved) :=
  scrapeVideo_skips_ledgered sampleLedgered (some ledgerWithTitleHit) "dl" true true
    [DownloadEvent.progress "g" "completed"] (by decide)

/-- C5: a private item not yet in the ledger (with the ledger write
succeeding) is ledgered with the sentinel filename and resolved: its whole
observable behaviour is that one append followed by the resolution, so no
interaction gesture happens, no listener is registered, and the item never
reaches the interaction driver or the download correlator. -/
theorem scrapeVideo_private_sentinel (vd : VideoData) (csvFile : Option String)
    (downloadDir : String) (renameOk : Bool) (events : List DownloadEvent)
    (hskip : isVideoDataInCSV csvFile vd.uuid = false)
    (hpriv : vd.isPrivate = true) :
    scrapeVideo vd csvFile downloadDir renameOk true events =
      ([ScrapeAction.appendCSV (csvLine vd "PRIVATE - video not downloadable"),
        ScrapeAction.resolve], ScrapeOutcome.resolved) := by
  simp [scrapeVideo, hskip, hpriv, addVideoDataToCSV]

/-- Applying C5 at a concrete private item against the header-only ledger. -/
theorem scrapeVideo_private_sentinel_witness :
    scrapeVideo samplePrivate (some csvHeaders) "dl" true true
      [DownloadEvent.willBegin "g"] =
      ([ScrapeAction.appendCSV
          (csvLine samplePrivate "PRIVATE - video not downloadable"),
        ScrapeAction.resolve], ScrapeOutcome.resolved) :=
  scrapeVideo_private_sentinel samplePrivate (some csvHeaders) "dl" true
    [DownloadEvent.willBegin "g"] (by decide) (by decide)

/-- C2: scrapeVideo appends to the ledger at most once per item; when its
promise resolves for an item that was not skipped it appends exactly once; and
every append happens only once the outcome is known: it is the sentinel append
of an item just classified private, or it directly follows the successful
rename of the downloaded file. -/
theorem scrapeVideo_appends_once (vd : VideoData) (csvFile : Option String)
    (downloadDir : String) (renameOk writeOk : Bool) (events : List DownloadEvent) :
    (scrapeVideo vd csvFile downloadDir renameOk writeOk events).1.countP
        isAppendAction ≤ 1
    ∧ ((scrapeVideo vd csvFile downloadDir renameOk writeOk events).2 =
          ScrapeOutcome.resolved →
        isVideoDataInCSV csvFile vd.uuid = false →
        (scrapeVideo vd csvFile downloadDir renameOk writeOk events).1.countP
          isAppendAction = 1)
    ∧ (∀ line, ScrapeAction.appendCSV line ∈
          (scrapeVideo vd csvFile downloadDir renameOk writeOk events).1 →
        vd.isPrivate = true ∨
        ∃ src dst, [ScrapeAction.rename src dst, ScrapeAction.appendCSV line] <:+:
          (scrapeVideo vd csvFile downloadDir renameOk writeOk events).1) := by
  by_cases hskip : isVideoDataInCSV csvFile vd.uuid = true
  · refine ⟨?_, ?_, ?_⟩ <;> simp [scrapeVideo, hskip, isAppendAction]
  · rw [Bool.not_eq_true] at hskip
    by_cases hpriv : vd.isPrivate = true
    · by_cases hw : writeOk = true
      · subst hw
        refine ⟨?_, ?_, ?_⟩ <;>
          simp [scrapeVideo, hskip, hpriv, addVideoDataToCSV, isAppendAction,
            List.countP_cons]
      · rw [Bool.not_eq_true] at hw
        subst hw
        refine ⟨?_, ?_, ?_⟩ <;>
          simp [scrapeVideo, hskip, hpriv, addVideoDataToCSV, isAppendAction]
    · rw [Bool.not_eq_true] at hpriv
      have hmain := processEvents_appends_bound vd downloadDir renameOk writeOk
        events initialCorrState rfl rfl
      have hadj := processEvents_append_after_rename vd downloadDir renameOk writeOk
        events initialCorrState
      have hform1 : (scrapeVideo vd csvFile downloadDir renameOk writeOk events).1 =
          [ScrapeAction.registerStartListener, ScrapeAction.registerProgressListener,
           ScrapeAction.hoverItem, ScrapeAction.waitTooltip, ScrapeAction.hoverTooltip,
           ScrapeAction.waitMenu, ScrapeAction.clickDownload] ++
            (processEvents vd downloadDir renameOk writeOk initialCorrState events).2 := by
        simp [scrapeVideo, hskip, hpriv]
      have hform2 : (scrapeVideo vd csvFile downloadDir renameOk writeOk events).2 =
          (processEvents vd downloadDir renameOk writeOk initialCorrState
            events).1.outcome := by
        simp [scrapeVideo, hskip, hpriv]
      refine ⟨?_, ?_, ?_⟩
      · rw [hform1]
        simpa [List.countP_append, List.countP_cons, isAppendAction] using hmain.1
      · rw [hform1, hform2]
        intro ho _
        have := (hmain.2.1 ho).1
        simpa [List.countP_append, List.countP_cons, isAppendAction] using this
      · intro line hmem
        rw [hform1] at hmem
        right
        rw [hform1]
        rcases List.mem_append.mp hmem with h1 | h2
        · simp at h1
        · obtain ⟨src, dst, u, v, huv⟩ := hadj line h2
          exact ⟨src, dst,
            [ScrapeAction.registerStartListener, ScrapeAction.registerProgressListener,
             ScrapeAction.hoverItem, ScrapeAction.waitTooltip, ScrapeAction.hoverTooltip,
             ScrapeAction.waitMenu, ScrapeAction.clickDownload] ++ u, v,
            by rw [← huv]; simp [List.append_assoc]⟩

/-- Applying C2 at a concrete non-skipped item whose download completes: the
run resolves with exactly one append. -/
theorem scrapeVideo_appends_once_witness :
    (scrapeVideo sampleDownload (some csvHeaders) "dl" true true
      [DownloadEvent.willBegin "guid1",
       DownloadEvent.progress "guid1" "completed"]).1.countP isAppendAction = 1 :=
  (scrapeVideo_appends_once sampleDownload (some csvHeaders) "dl" true true
    [DownloadEvent.willBegin "guid1",
     DownloadEvent.progress "guid1" "completed"]).2.1 (by decide) (by decide)

/-- C6: correlation is exclusive. A started notification is captured only
while the start listener is attached and capturing detaches it at once, so
across a whole run the captured identifier is the one of the first started
notification; and a progress notification whose identifier is not the
captured one, or whose state is not completed, changes nothing and performs
nothing, so the completion action runs only for a completed-progress
notification carrying the captured identifier. -/
theorem correlation_exclusive (vd : VideoData) (downloadDir : String)
    (renameOk writeOk : Bool) :
    (∀ (s : CorrState) (g : String), s.startListenerOn = true →
      handleEvent vd downloadDir renameOk writeOk s (DownloadEvent.willBegin g) =
        ({ s with startListenerOn := false, downloadFilename := g },
         [ScrapeAction.removeStartListeners]))
    ∧ (∀ (s : CorrState) (g : String), s.startListenerOn = false →
      handleEvent vd downloadDir renameOk writeOk s (DownloadEvent.willBegin g) =
        (s, []))
    ∧ (∀ (es₁ es₂ : List DownloadEvent) (g : String),
      (∀ e ∈ es₁, isWillBeginEvent e = false) →
      (processEvents vd downloadDir renameOk writeOk initialCorrState
        (es₁ ++ DownloadEvent.willBegin g :: es₂)).1.downloadFilename = g)
    ∧ (∀ (s : CorrState) (g st : String),
      ¬ (g = s.downloadFilename ∧ st = "completed") →
      handleEvent vd downloadDir renameOk writeOk s (DownloadEvent.progress g st) =
        (s, [])) := by
  refine ⟨?_, ?_, ?_, ?_⟩
  · intro s g h
    simp [handleEvent, h]
  · intro s g h
    simp [handleEvent, h]
  · intro es₁ es₂ g h
    rw [processEvents_append]
    have h1 := processEvents_noStart vd downloadDir renameOk writeOk es₁
      initialCorrState h
    have hs1 : (processEvents vd downloadDir renameOk writeOk initialCorrState
        es₁).1.startListenerOn = true := by
      rw [h1.2]
      rfl
    simp only [processEvents, handleEvent, hs1, if_true]
    have h2 := processEvents_startOff vd downloadDir renameOk writeOk es₂
      { (processEvents vd downloadDir renameOk writeOk initialCorrState es₁).1 with
        startListenerOn := false, downloadFilename := g } (by simp)
    simpa using h2.1
  · intro s g st h
    have hcond :
        (s.progressListenerOn && g == s.downloadFilename && st == "completed")
          = false := by
      by_cases hg : g = s.downloadFilename
      · have hst : ¬ st = "completed" := fun hst => h ⟨hg, hst⟩
        simp [hst]
      · simp [hg]
    simp [handleEvent, hcond]

/-- Applying C6 at a concrete run: an early stray completed-progress
notification and a second started notification are both ignored; the captured
identifier is the first started one. -/
theorem correlation_exclusive_witness :
    (processEvents sampleDownload "dl" true true initialCorrState
      ([DownloadEvent.progress "zzz" "completed"] ++
        DownloadEvent.willBegin "g1" ::
          [DownloadEvent.willBegin "g2"])).1.downloadFilename = "g1" :=
  (correlation_exclusive sampleDownload "dl" true true).2.2.1
    [DownloadEvent.progress "zzz" "completed"] [DownloadEvent.willBegin "g2"] "g1"
    (by decide)

/-- C10: before any started notification has been received the captured
identifier still holds its initial empty-string value, so as long as every
transfer identifier on offer is nonempty no progress notification can trigger
the completion action: the correlator performs nothing and stays in its
initial state. -/
theorem empty_capture_blocks_completion (vd : VideoData) (downloadDir : String)
    (renameOk writeOk : Bool) (events : List DownloadEvent)
    (hnostart : ∀ e ∈ events, isWillBeginEvent e = false)
    (hguid : ∀ e ∈ events, ¬ eventGuid e = "") :
    processEvents vd downloadDir renameOk writeOk initialCorrState events =
      (initialCorrState, []) :=
  processEvents_noCompletion vd downloadDir renameOk writeOk events
    initialCorrState rfl hnostart hguid

/-- Applying C10 at a concrete completed-progress notification arriving before
any download started. -/
theorem empty_capture_blocks_completion_witness :
    processEvents sampleDownload "dl" true true initialCorrState
      [DownloadEvent.progress "abc" "completed"] = (initialCorrState, []) :=
  empty_capture_blocks_completion sampleDownload "dl" true true
    [DownloadEvent.progress "abc" "completed"] (by decide) (by decide)

/-- C7 fails as stated: with the underlying write failing, the append for a
concrete private item raises instead of being reported-and-survived, the
scrapeVideo promise ends with an unhandled error and never resolves, and a
following item is never reached. -/
theorem append_write_failure_counterexample :
    addVideoDataToCSV false samplePrivate "PRIVATE - video not downloadable" =
      Except.error ()
    ∧ (scrapeVideo samplePrivate (some csvHeaders) "dl" true false []).2 =
      ScrapeOutcome.uncaughtError
    ∧ ScrapeAction.resolve ∉
      (scrapeVideo samplePrivate (some csvHeaders) "dl" true false []).1
    ∧ itemsProcessed "dl"
        [(samplePrivate, some csvHeaders, true, false, []),
         (sampleLedgered, some ledgerWithTitleHit, true, true, [])] = 0 :=
  ⟨rfl, by decide, by decide, by decide⟩

/-- C7 amended: a failing ledger write is caught nowhere: addVideoDataToCSV
propagates the error, the promise of a non-skipped item never resolves (it
ends in an unhandled error or keeps pending), and the orchestrator loop, which
awaits that promise, never reaches the remaining items. -/
theorem append_write_failure_not_handled (vd : VideoData) (csvFile : Option String)
    (downloadDir : String) (renameOk : Bool) (events : List DownloadEvent)
    (hskip : isVideoDataInCSV csvFile vd.uuid = false) :
    addVideoDataToCSV false vd "PRIVATE - video not downloadable" = Except.error ()
    ∧ (scrapeVideo vd csvFile downloadDir renameOk false events).2 ≠
      ScrapeOutcome.resolved
    ∧ ScrapeAction.resolve ∉
      (scrapeVideo vd csvFile downloadDir renameOk false events).1
    ∧ ∀ rest, itemsProcessed downloadDir
        ((vd, csvFile, renameOk, false, events) :: rest) = 0 := by
  have hcore : (scrapeVideo vd csvFile downloadDir renameOk false events).2 ≠
      ScrapeOutcome.resolved
      ∧ ScrapeAction.resolve ∉
        (scrapeVideo vd csvFile downloadDir renameOk false events).1 := by
    by_cases hpriv : vd.isPrivate = true
    · have hform : scrapeVideo vd csvFile downloadDir renameOk false events =
          ([], ScrapeOutcome.uncaughtError) := by
        simp [scrapeVideo, hskip, hpriv, addVideoDataToCSV]
      rw [hform]
      simp
    · rw [Bool.not_eq_true] at hpriv
      have hmain := processEvents_appends_bound vd downloadDir renameOk false
        events initialCorrState rfl rfl
      have hform1 : (scrapeVideo vd csvFile downloadDir renameOk false events).1 =
          [ScrapeAction.registerStartListener, ScrapeAction.registerProgressListener,
           ScrapeAction.hoverItem, ScrapeAction.waitTooltip, ScrapeAction.hoverTooltip,
           ScrapeAction.waitMenu, ScrapeAction.clickDownload] ++
            (processEvents vd downloadDir renameOk false initialCorrState
              events).2 := by
        simp [scrapeVideo, hskip, hpriv]
      have hform2 : (scrapeVideo vd csvFile downloadDir renameOk false events).2 =
          (processEvents vd downloadDir renameOk false initialCorrState
            events).1.outcome := by
        simp [scrapeVideo, hskip, hpriv]
      constructor
      · rw [hform2]
        intro hcontra
        exact Bool.false_ne_true (hmain.2.1 hcontra).2
      · rw [hform1]
        intro hmem
        rcases List.mem_append.mp hmem with h1 | h2
        · simp at h1
        · exact Bool.false_ne_true (hmain.2.2 h2)
  refine ⟨rfl, hcore.1, hcore.2, ?_⟩
  intro rest
  simp only [itemsProcessed]
  rw [if_neg hcore.1]

/-- Applying the amended C7 theorem at a concrete private item with a failing
write: the promise does not resolve. -/
theorem append_write_failure_not_handled_witness :
    (scrapeVideo samplePrivate (some csvHeaders) "dl" true false []).2 ≠
      ScrapeOutcome.resolved :=
  (append_write_failure_not_handled samplePrivate (some csvHeaders) "dl" true []
    (by decide)).2.1

/-- A loop starting at iteration k never returns while every remaining
iteration advances. -/
theorem loadAllVideosLoop_none (observedTop : Nat → Int) :
    ∀ (fuel k : Nat),
      (∀ j, k ≤ j → observedTop j ≠ prevPosition observedTop j) →
      loadAllVideosLoop observedTop fuel k (prevPosition observedTop k) = none := by
  intro fuel
  induction fuel with
  | zero =>
    intro k _
    rfl
  | succ fuel ih =>
    intro k h
    have hk := h k le_rfl
    simp only [loadAllVideosLoop, if_neg hk]
    exact ih (k + 1) fun j hj => h j (by omega)

/-- A loop starting at iteration k returns at the first non-advancing
iteration, given enough fuel. -/
theorem loadAllVideosLoop_some (observedTop : Nat → Int) :
    ∀ (fuel k n : Nat), k ≤ n →
      observedTop n = prevPosition observedTop n →
      (∀ m, k ≤ m → m < n → observedTop m ≠ prevPosition observedTop m) →
      n - k < fuel →
      loadAllVideosLoop observedTop fuel k (prevPosition observedTop k) = some n := by
  intro fuel
  induction fuel with
  | zero =>
    intro k n _ _ _ hfuel
    omega
  | succ fuel ih =>
    intro k n hkn hn hmin hfuel
    by_cases hk : observedTop k = prevPosition observedTop k
    · have hkeq : k = n := by
        by_contra hne
        exact hmin k le_rfl (by omega) hk
      subst hkeq
      simp [loadAllVideosLoop, hk]
    · simp only [loadAllVideosLoop, if_neg hk]
      have hkn' : k + 1 ≤ n := by
        rcases Nat.eq_or_lt_of_le hkn with rfl | hlt
        · exact absurd hn hk
        · omega
      exact ih (k + 1) n hkn' hn (fun m hm1 hm2 => hmin m (by omega) hm2) (by omega)

/-- C9: the scroll loop of loadAllVideos terminates exactly when one full
settle interval produces no advancement: it returns at the first iteration
whose observed position equals the previous one (the comparison value is -1
before the first iteration), and it has no other termination condition: under
an environment whose position advances after every settle interval the loop
exhausts any amount of fuel without returning, since the source places no
bound on the number of iterations. -/
theorem loadAllVideos_terminates_iff_stable (observedTop : Nat → Int) :
    (∀ (n fuel : Nat), observedTop n = prevPosition observedTop n →
      (∀ m, m < n → observedTop m ≠ prevPosition observedTop m) →
      n < fuel →
      loadAllVideosRun observedTop fuel = some n)
    ∧ ((∀ n, observedTop n ≠ prevPosition observedTop n) →
      ∀ fuel, loadAllVideosRun observedTop fuel = none) := by
  constructor
  · intro n fuel hn hmin hfuel
    have h := loadAllVideosLoop_some observedTop fuel 0 n (Nat.zero_le n) hn
      (fun m _ hm2 => hmin m hm2) (by omega)
    simpa [loadAllVideosRun, prevPosition] using h
  · intro h fuel
    have hnone := loadAllVideosLoop_none observedTop fuel 0 fun j _ => h j
    simpa [loadAllVideosRun, prevPosition] using hnone

/-- Applying C9 at two concrete environments: one that stops advancing at
position 3 (the loop returns at iteration 4, the first settle interval with no
advancement), and one that advances at every iteration (the loop exhausts any
amount of fuel, here 7, without returning). -/
theorem loadAllVideos_terminates_iff_stable_witness :
    loadAllVideosRun (fun k => min (k : Int) 3) 10 = some 4 ∧
    loadAllVideosRun (fun k => (k : Int)) 7 = none := by
  constructor
  · exact (loadAllVideos_terminates_iff_stable (fun k => min (k : Int) 3)).1 4 10
      (by decide) (by decide) (by omega)
  · refine (loadAllVideos_terminates_iff_stable (fun k => (k : Int))).2 ?_ 7
    intro n
    cases n with
    | zero => decide
    | succ m =>
      simp only [prevPosition]
      omega
